import Mathlib

/-!
Verification of the content-curation pipeline in `scrapping_app.py`
(news fetching with a rolling rate limit, LLM-judge scoring, weighted
ranking, per-platform post generation, and selective publishing).

Shallow embedding conventions:
* Python floats are modelled as rationals (`ℚ`), timestamps as integers.
* JSON values are modelled by the inductive `JVal`; a Python `dict` is an
  association list, `d.get(k, default)` is `(l.lookup k).getD default`.
* A fallible external interaction (HTTP call, JSON body parse) is an
  `Option`-valued input to the embedded function: `none` is the path on
  which the corresponding Python expression raises and the surrounding
  `try/except` takes over.  The embedded functions are total, which
  mirrors the fact that every code path under scrutiny catches all
  exceptions and returns a value.
-/

/-- JSON values as produced by `response.json()` / `json.loads`. -/
inductive JVal where
  | jnull
  | jbool (b : Bool)
  | jnum (q : ℚ)
  | jstr (s : String)
  | jarr (elems : List JVal)
  | jobj (fields : List (String × JVal))

/-- `d.get(k)` view of a JSON object: `some fields` when the value is a
dict, `none` when attribute access on it would raise (`x.get` on a
non-dict). -/
def JVal.asObj : JVal → Option (List (String × JVal))
  | .jobj o => some o
  | _ => none

/-- Iterating a JSON value as a list: `some elems` for an array, `none`
when the `for` loop over it would raise. -/
def JVal.asArr : JVal → Option (List JVal)
  | .jarr a => some a
  | _ => none

/-- String view of a JSON value.  The embedding keeps `Article` fields
as strings, so provider fields are required to be strings when present
(absent fields take the string default `""` before this view is
applied).  Python would pass a non-string field value through into the
`Article` unchanged; that case is outside this model and no theorem
below exercises it. -/
def JVal.asStr : JVal → Option String
  | .jstr s => some s
  | _ => none

/-- `content.get(k, 0)` on the judge's decoded JSON object
(`scrapping_app.py` lines 139-141). -/
def contentGet (content : List (String × JVal)) (k : String) : JVal :=
  (content.lookup k).getD (.jnum 0)

/-- Numeric value of a digit list, most significant digit first. -/
def digitsToNat (cs : List Char) : Nat :=
  cs.foldl (fun a c => 10 * a + (c.toNat - 48)) 0

/-- Strip leading and trailing whitespace (Python `float` ignores
surrounding whitespace in a string argument). -/
def trimChars (cs : List Char) : List Char :=
  ((cs.dropWhile (·.isWhitespace)).reverse.dropWhile (·.isWhitespace)).reverse

/-- Optional leading sign of a float literal. -/
def pySign : List Char → ℚ × List Char
  | '+' :: rest => (1, rest)
  | '-' :: rest => (-1, rest)
  | cs => (1, cs)

/-- Optional sign of an exponent. -/
def pyExpSign : List Char → Int × List Char
  | '+' :: rest => (1, rest)
  | '-' :: rest => (-1, rest)
  | cs => (1, cs)

/-- The fractional digits after the integer part of a float literal:
nothing, or a dot followed by digits only. -/
def pyFrac : List Char → Option (List Char)
  | [] => some []
  | '.' :: f => if f.all Char.isDigit then some f else none
  | _ => none

/-- The exponent of a float literal: nothing, or an `e`/`E` marker
followed by an optionally signed nonempty digit string. -/
def pyExp : List Char → Option Int
  | [] => some 0
  | _ :: es =>
    let (sg, ds) := pyExpSign es
    if ds.isEmpty || !(ds.all Char.isDigit) then none
    else some (sg * (digitsToNat ds : Int))

/-- Python `float(s)` on a string: the ASCII decimal float literals
`[sign] digits [. digits] [(e|E) [sign] digits]` (integer and
fractional digits not both absent), with surrounding whitespace
ignored.  Literals Python additionally accepts but that have no finite
rational value or lie outside ASCII decimals (`inf`, `nan`, digit
grouping underscores, unicode digits) are treated as non-coercible. -/
def pyFloatOfString (s : String) : Option ℚ :=
  let (sgn, cs) := pySign (trimChars s.data)
  let (mant, expPart) := cs.span fun c => !(c == 'e' || c == 'E')
  let (intPart, rest) := mant.span Char.isDigit
  match pyFrac rest, pyExp expPart with
  | some frac, some e =>
    if intPart.isEmpty && frac.isEmpty then none
    else some (sgn * (((digitsToNat intPart : ℚ) +
        (digitsToNat frac : ℚ) / (10 : ℚ) ^ frac.length) * (10 : ℚ) ^ e))
  | _, _ => none

/-- Python's `float(...)` coercion on JSON values: numbers map to
themselves, booleans to 0/1, numeric strings are parsed
(`pyFloatOfString`), and `none` models the arguments on which
`float()` raises (`None`, arrays, objects, non-numeric strings). -/
def pyFloat : JVal → Option ℚ
  | .jnum q => some q
  | .jbool b => some (if b then 1 else 0)
  | .jstr s => pyFloatOfString s
  | _ => none

/-- The score dictionary returned by `ContentScorer.score_article`
(keys as in the source: `key_score`, `credibility_score`,
`engagement_score`). -/
structure ScoreTriple where
  key_score : ℚ
  credibility_score : ℚ
  engagement_score : ℚ
deriving DecidableEq, Repr

/-- The all-zero fallback triple returned on every degraded path
(`scrapping_app.py` lines 133, 144, 147). -/
def zeroScores : ScoreTriple := ⟨0, 0, 0⟩

/-- Lines 138-144 of `scrapping_app.py`: coerce the three score fields
with `float(content.get(k, 0))`.  The three coercions happen inside one
`try`, so if any single `float()` raises, the `except` returns the
all-zero triple.  -/
def scoresFromContent (content : List (String × JVal)) : ScoreTriple :=
  match pyFloat (contentGet content "key_score"),
        pyFloat (contentGet content "credibility_score"),
        pyFloat (contentGet content "engagement_score") with
  | some k, some c, some e => ⟨k, c, e⟩
  | _, _, _ => zeroScores

/-- Outcome of the judge HTTP call in `ContentScorer.score_article`:
the status code, and the decoded JSON object found at
`response.json()['choices'][0]['message']['content']` — `none` when the
body is not parseable JSON, the path to the content is missing, or the
content is not a JSON object (all of which raise inside the inner `try`
at lines 135-144). -/
structure JudgeHttp where
  status : Int
  content : Option (List (String × JVal))

/-- `ContentScorer.score_article` (lines 100-147), as a function of the
judge-call outcome; `none` models `requests.post` itself raising
(network failure/timeout), handled by the outer `except`. -/
def score_article : Option JudgeHttp → ScoreTriple
  | none => zeroScores
  | some r =>
    if r.status ≠ 200 then zeroScores
    else
      match r.content with
      | none => zeroScores
      | some content => scoresFromContent content

/-- An `Article` as built by the source adapters; `scores` is the dict
assigned once by `article.scores = scorer.score_article(...)`
(line 259). -/
structure Article where
  title : String
  description : String
  url : String
  source : String
  scores : List (String × ℚ)
deriving DecidableEq, Repr

/-- Line 259 of `scrapping_app.py`: store the scorer's dict on the
article, verbatim, with no clamping or validation. -/
def setScores (a : Article) (t : ScoreTriple) : Article :=
  { a with scores := [("key_score", t.key_score),
                      ("credibility_score", t.credibility_score),
                      ("engagement_score", t.engagement_score)] }

/-- `x.scores.get(k, 0)` (lines 264-266, 276-278). -/
def getScore (a : Article) (k : String) : ℚ :=
  (a.scores.lookup k).getD 0

/-- C5: for every scoring invocation in which the judge call fails, the
HTTP status is not 200 (in particular any non-success status), or the
returned body is not parseable JSON, `score_article` returns the
all-zero triple; totality of the embedding reflects that it never
raises past its boundary. -/
theorem C5_scorer_all_zero_on_failure (r : Option JudgeHttp)
    (h : r = none ∨ ∃ j, r = some j ∧ (j.status ≠ 200 ∨ j.content = none)) :
    score_article r = zeroScores := by
  rcases h with h | ⟨j, rfl, hj⟩
  · subst h; rfl
  · rcases hj with hs | hc
    · simp [score_article, hs]
    · rcases j with ⟨s, c⟩
      cases hc
      by_cases h200 : (s : Int) = 200 <;> simp [score_article, h200]

/-- A concrete failed judge response (HTTP 500) used as witness input. -/
def judgeCex : JudgeHttp := ⟨500, some [("key_score", JVal.jnum (9/10))]⟩

theorem C5_scorer_all_zero_on_failure_witness :
    ((some judgeCex : Option JudgeHttp) = none ∨
      ∃ j, (some judgeCex : Option JudgeHttp) = some j ∧
        (j.status ≠ 200 ∨ j.content = none)) ∧
    score_article (some judgeCex) = zeroScores := by
  refine ⟨Or.inr ⟨_, rfl, Or.inl (by decide)⟩, ?_⟩
  exact C5_scorer_all_zero_on_failure _ (Or.inr ⟨_, rfl, Or.inl (by decide)⟩)

/-- C2 counterexample: with a judge content whose `key_score` is
non-numeric (`null`) but whose other two scores are valid, the code
zeroes the WHOLE triple (the claim says only the invalid key defaults
to 0 and `credibility_score` stays 9/10); and with an all-numeric
content containing 2, the value 2 is stored on the article unclamped,
outside [0,1]. -/
theorem C2_counterexample :
    scoresFromContent
        [("key_score", JVal.jnull),
         ("credibility_score", JVal.jnum (9/10)),
         ("engagement_score", JVal.jnum (7/10))] = zeroScores ∧
    (zeroScores.credibility_score = 0 ∧ (9 : ℚ)/10 ≠ 0) ∧
    scoresFromContent
        [("key_score", JVal.jnum 2),
         ("credibility_score", JVal.jnum (1/2)),
         ("engagement_score", JVal.jnum (1/2))] = ⟨2, 1/2, 1/2⟩ ∧
    getScore (setScores ⟨"t", "d", "u", "s", []⟩ ⟨2, 1/2, 1/2⟩) "key_score" = 2 ∧
    ¬ ((2 : ℚ) ≤ 1) := by
  refine ⟨rfl, ⟨rfl, by norm_num⟩, rfl, rfl, by norm_num⟩

/-- C2 (amended): a key MISSING from the judge content defaults to 0
individually — whichever of the three keys it is — the other two
numeric values being kept; but a present value on which `float()`
raises, for any of the three keys, zeroes the whole triple, and
numeric values are stored verbatim, without being clamped or validated
to [0,1]. -/
theorem C2_scorer_per_key_behaviour :
    (∀ (content : List (String × JVal)) (b c : ℚ),
      content.lookup "key_score" = none →
      pyFloat (contentGet content "credibility_score") = some b →
      pyFloat (contentGet content "engagement_score") = some c →
      scoresFromContent content = ⟨0, b, c⟩) ∧
    (∀ (content : List (String × JVal)) (a c : ℚ),
      content.lookup "credibility_score" = none →
      pyFloat (contentGet content "key_score") = some a →
      pyFloat (contentGet content "engagement_score") = some c →
      scoresFromContent content = ⟨a, 0, c⟩) ∧
    (∀ (content : List (String × JVal)) (a b : ℚ),
      content.lookup "engagement_score" = none →
      pyFloat (contentGet content "key_score") = some a →
      pyFloat (contentGet content "credibility_score") = some b →
      scoresFromContent content = ⟨a, b, 0⟩) ∧
    (∀ content : List (String × JVal),
      (pyFloat (contentGet content "key_score") = none ∨
       pyFloat (contentGet content "credibility_score") = none ∨
       pyFloat (contentGet content "engagement_score") = none) →
      scoresFromContent content = zeroScores) ∧
    (∀ (content : List (String × JVal)) (k' c' e' : ℚ),
      pyFloat (contentGet content "key_score") = some k' →
      pyFloat (contentGet content "credibility_score") = some c' →
      pyFloat (contentGet content "engagement_score") = some e' →
      scoresFromContent content = ⟨k', c', e'⟩) := by
  have hdflt : ∀ (content : List (String × JVal)) (k : String),
      content.lookup k = none → pyFloat (contentGet content k) = some 0 := by
    intro content k hk
    simp [contentGet, hk, pyFloat]
  refine ⟨?_, ?_, ?_, ?_, ?_⟩
  · intro content b c hmiss hb hc
    simp [scoresFromContent, hdflt content _ hmiss, hb, hc]
  · intro content a c hmiss ha hc
    simp [scoresFromContent, hdflt content _ hmiss, ha, hc]
  · intro content a b hmiss ha hb
    simp [scoresFromContent, hdflt content _ hmiss, ha, hb]
  · intro content h
    rcases h with h | h | h
    · simp [scoresFromContent, h]
    · rcases hk : pyFloat (contentGet content "key_score") with - | k <;>
        simp [scoresFromContent, hk, h]
    · rcases hk : pyFloat (contentGet content "key_score") with - | k <;>
        rcases hc : pyFloat (contentGet content "credibility_score") with - | c <;>
        simp [scoresFromContent, hk, hc, h]
  · intro content k' c' e' h1 h2 h3
    simp [scoresFromContent, h1, h2, h3]

theorem C2_scorer_per_key_behaviour_witness :
    ([("key_score", JVal.jnum (6/10)),
      ("engagement_score", JVal.jnum (7/10))].lookup "credibility_score" = none) ∧
    scoresFromContent
      [("key_score", JVal.jnum (6/10)),
       ("engagement_score", JVal.jnum (7/10))] = ⟨6/10, 0, 7/10⟩ := by
  refine ⟨rfl, ?_⟩
  exact C2_scorer_per_key_behaviour.2.1
    [("key_score", JVal.jnum (6/10)), ("engagement_score", JVal.jnum (7/10))]
    (6/10) (7/10) rfl rfl rfl

/-!
## Ranker (lines 261-269)

`sorted(all_articles, key=aggregate, reverse=True)[:4]`.  Python's
`sorted` is a stable sort also under `reverse=True` (ties keep input
order, they are not reversed).  A stable descending sort of a list is
unique, so we embed it as the descending insertion sort below, which is
stable: an incoming (earlier-in-input) element is placed before the
first element whose key is `≤` its own, i.e. before all of its ties.
-/

/-- Insert `x` into a descending-sorted list, before the first element
whose key is not larger — so before all ties of `x`. -/
def insertDesc (f : α → ℚ) (x : α) : List α → List α
  | [] => [x]
  | y :: ys => if f y ≤ f x then x :: y :: ys else y :: insertDesc f x ys

/-- Stable descending sort by key `f`: the embedding of
`sorted(l, key=f, reverse=True)`. -/
def sortDesc (f : α → ℚ) (l : List α) : List α :=
  l.foldr (insertDesc f) []

/-- The sort key of line 263-267:
`x.scores.get('key_score', 0)*0.5 + x.scores.get('credibility_score', 0)*0.3
 + x.scores.get('engagement_score', 0)*0.2`. -/
def aggregate (a : Article) : ℚ :=
  getScore a "key_score" * 0.5 +
  getScore a "credibility_score" * 0.3 +
  getScore a "engagement_score" * 0.2

/-- The ranking step of line 261-269 before the slice: all fetched
articles, stably sorted by aggregate score, descending. -/
def rankArticles (l : List Article) : List Article :=
  sortDesc aggregate l

/-- `ranked[:n]`; the source hardcodes `n = 4` at line 269. -/
def topN (n : Nat) (l : List Article) : List Article :=
  (rankArticles l).take n

theorem insertDesc_perm (f : α → ℚ) (x : α) (l : List α) :
    (insertDesc f x l).Perm (x :: l) := by
  induction l with
  | nil => simp [insertDesc]
  | cons y ys ih =>
    by_cases h : f y ≤ f x
    · simp [insertDesc, h]
    · simp only [insertDesc, if_neg h]
      exact (ih.cons y).trans (List.Perm.swap x y ys)

theorem sortDesc_perm (f : α → ℚ) (l : List α) : (sortDesc f l).Perm l := by
  induction l with
  | nil => rfl
  | cons x xs ih =>
    exact (insertDesc_perm f x (sortDesc f xs)).trans (ih.cons x)

theorem insertDesc_sorted (f : α → ℚ) (x : α) (l : List α)
    (h : List.Pairwise (fun a b => f b ≤ f a) l) :
    List.Pairwise (fun a b => f b ≤ f a) (insertDesc f x l) := by
  induction l with
  | nil => simp [insertDesc]
  | cons y ys ih =>
    rcases h with - | ⟨hy, hys⟩
    by_cases hxy : f y ≤ f x
    · simp only [insertDesc, if_pos hxy]
      refine List.Pairwise.cons ?_ (List.Pairwise.cons hy hys)
      exact List.forall_mem_cons.mpr ⟨hxy, fun b hb => le_trans (hy b hb) hxy⟩
    · simp only [insertDesc, if_neg hxy]
      refine List.Pairwise.cons ?_ (ih hys)
      intro b hb
      rcases List.mem_cons.mp ((insertDesc_perm f x ys).mem_iff.mp hb) with rfl | hb'
      · exact le_of_lt (lt_of_not_le hxy)
      · exact hy b hb'

theorem sortDesc_sorted (f : α → ℚ) (l : List α) :
    List.Pairwise (fun a b => f b ≤ f a) (sortDesc f l) := by
  induction l with
  | nil => exact List.Pairwise.nil
  | cons x xs ih => exact insertDesc_sorted f x (sortDesc f xs) ih

theorem insertDesc_filter_key (f : α → ℚ) (q : ℚ) (x : α) (l : List α) :
    (insertDesc f x l).filter (fun a => decide (f a = q)) =
      (if f x = q then [x] else []) ++ l.filter (fun a => decide (f a = q)) := by
  induction l with
  | nil =>
    by_cases hx : f x = q <;> simp [insertDesc, List.filter, hx]
  | cons y ys ih =>
    by_cases hxy : f y ≤ f x
    · simp only [insertDesc, if_pos hxy]
      by_cases hx : f x = q <;> by_cases hy : f y = q <;>
        simp [List.filter_cons, hx, hy]
    · simp only [insertDesc, if_neg hxy]
      have hlt : f x < f y := lt_of_not_le hxy
      by_cases hy : f y = q
      · have hx : ¬ f x = q := by
          intro hx; exact absurd (hx.trans hy.symm) (ne_of_lt hlt)
        simp [List.filter_cons, hy, hx, ih]
      · simp [List.filter_cons, hy, ih]

theorem sortDesc_stable (f : α → ℚ) (q : ℚ) (l : List α) :
    (sortDesc f l).filter (fun a => decide (f a = q)) =
      l.filter (fun a => decide (f a = q)) := by
  induction l with
  | nil => rfl
  | cons x xs ih =>
    show (insertDesc f x (sortDesc f xs)).filter _ = _
    rw [insertDesc_filter_key, ih]
    by_cases hx : f x = q <;> simp [List.filter_cons, hx]

/-- Article A of end-to-end scenario A, scored {0.9, 0.8, 0.7}. -/
def artA : Article :=
  ⟨"A", "", "urlA", "sA",
   [("key_score", 9/10), ("credibility_score", 8/10), ("engagement_score", 7/10)]⟩

/-- Article B of end-to-end scenario A, scored {0.1, 0.1, 0.1}. -/
def artB : Article :=
  ⟨"B", "", "urlB", "sB",
   [("key_score", 1/10), ("credibility_score", 1/10), ("engagement_score", 1/10)]⟩

/-- C3: the ranking key is `0.5*relevance + 0.3*credibility +
0.2*engagement` (scores read with default 0, so an absent key counts as
0), articles are ordered by this key descending (and the ranking is a
permutation of its input); in scenario A, A aggregates to 0.83, B to
0.1, A is ranked above B, and taking the top 1 yields `[A]`. -/
theorem C3_ranking_key_and_scenario (l : List Article) (a : Article) :
    (aggregate a =
      (1/2) * getScore a "key_score" + (3/10) * getScore a "credibility_score" +
        (1/5) * getScore a "engagement_score") ∧
    (∀ k, a.scores.lookup k = none → getScore a k = 0) ∧
    List.Pairwise (fun x y => aggregate y ≤ aggregate x) (rankArticles l) ∧
    (rankArticles l).Perm l ∧
    aggregate artA = 83/100 ∧
    aggregate artB = 1/10 ∧
    rankArticles [artB, artA] = [artA, artB] ∧
    topN 1 [artB, artA] = [artA] := by
  have e1 : getScore artA "key_score" = 9/10 := rfl
  have e2 : getScore artA "credibility_score" = 8/10 := rfl
  have e3 : getScore artA "engagement_score" = 7/10 := rfl
  have f1 : getScore artB "key_score" = 1/10 := rfl
  have f2 : getScore artB "credibility_score" = 1/10 := rfl
  have f3 : getScore artB "engagement_score" = 1/10 := rfl
  have hA : aggregate artA = 83/100 := by
    unfold aggregate; rw [e1, e2, e3]; norm_num
  have hB : aggregate artB = 1/10 := by
    unfold aggregate; rw [f1, f2, f3]; norm_num
  have hAB : ¬ (aggregate artA ≤ aggregate artB) := by
    rw [hA, hB]; norm_num
  refine ⟨by unfold aggregate; ring, ?_, sortDesc_sorted aggregate l,
          sortDesc_perm aggregate l, hA, hB, ?_, ?_⟩
  · intro k hk
    simp [getScore, hk]
  · show insertDesc aggregate artB [artA] = [artA, artB]
    simp only [insertDesc, if_neg hAB]
  · show (insertDesc aggregate artB [artA]).take 1 = [artA]
    simp only [insertDesc, if_neg hAB]
    rfl

/-- C4: the ranking is stable — for every key value, the articles
having that aggregate score appear in the output in their input
(fetch) order; and the top-N selection is a prefix of the ranked
sequence of length `min n (number of articles)`, so it never returns
more items and never reorders beyond the sort key. -/
theorem C4_ranker_stability_and_selection (l : List Article) (n : Nat) (q : ℚ) :
    ((rankArticles l).filter (fun a => decide (aggregate a = q)) =
      l.filter (fun a => decide (aggregate a = q))) ∧
    (topN n l).length = min n l.length ∧
    (∃ rest, topN n l ++ rest = rankArticles l) := by
  refine ⟨sortDesc_stable aggregate q l, ?_, ?_⟩
  · have hlen : (rankArticles l).length = l.length :=
      (sortDesc_perm aggregate l).length_eq
    simp [topN, List.length_take, hlen]
  · exact ⟨(rankArticles l).drop n, List.take_append_drop n (rankArticles l)⟩

/-!
## Source adapters (lines 48-97)

`NewsAPIClient.fetch_articles` / `GuardianAPIClient.fetch_articles`.
The whole request-and-parse body sits in one `try`; `except` reports the
error via `st.error` and returns `[]`.  The embedding returns the
article list together with a flag telling whether an error was
reported.  Note the source never inspects `response.status_code`.
-/

/-- The outcome of `requests.get` in a fetch adapter: HTTP status and
the decoded JSON body (`none` when `response.json()` raises on an
unparseable body). -/
structure FetchResp where
  status : Int
  body : Option JVal

/-- Reading one NewsAPI item (lines 63-68): `item.get("title", "")`,
`item.get("description", "")`, `item.get("url", "")`,
`item.get("source", {}).get("name", "")`.  `none` models the raise on a
non-dict item or a non-dict `source` value, which aborts the whole
fetch into the `except` branch. -/
def newsParseItem (item : JVal) : Option Article := do
  let o ← item.asObj
  let so ← ((o.lookup "source").getD (.jobj [])).asObj
  let title ← ((o.lookup "title").getD (.jstr "")).asStr
  let description ← ((o.lookup "description").getD (.jstr "")).asStr
  let url ← ((o.lookup "url").getD (.jstr "")).asStr
  let source ← ((so.lookup "name").getD (.jstr "")).asStr
  pure ⟨title, description, url, source, []⟩

/-- `response.json().get("articles", [])` and the comprehension over it
(lines 62-69). -/
def newsExtract (b : JVal) : Option (List Article) := do
  let o ← b.asObj
  let items ← ((o.lookup "articles").getD (.jarr [])).asArr
  items.mapM newsParseItem

/-- `NewsAPIClient.fetch_articles` (lines 48-72) as a function of the
HTTP outcome (`none` = `requests.get` raised).  Returns the article
list and whether `st.error` was invoked; totality models that the
adapter never raises past its boundary. -/
def newsFetch : Option FetchResp → List Article × Bool
  | none => ([], true)
  | some r =>
    match r.body with
    | none => ([], true)
    | some b =>
      match newsExtract b with
      | none => ([], true)
      | some arts => (arts, false)

/-- Reading one Guardian item (lines 88-93):
`item.get("fields", {}).get("headline", "")`,
`item.get("fields", {}).get("trailText", "")`, `item.get("webUrl", "")`
and the hardcoded source `"The Guardian"`. -/
def guardianParseItem (item : JVal) : Option Article := do
  let o ← item.asObj
  let fo ← ((o.lookup "fields").getD (.jobj [])).asObj
  let title ← ((fo.lookup "headline").getD (.jstr "")).asStr
  let description ← ((fo.lookup "trailText").getD (.jstr "")).asStr
  let url ← ((o.lookup "webUrl").getD (.jstr "")).asStr
  pure ⟨title, description, url, "The Guardian", []⟩

/-- `response.json().get("response", {}).get("results", [])` and the
comprehension over it (lines 87-94). -/
def guardianExtract (b : JVal) : Option (List Article) := do
  let o ← b.asObj
  let ro ← ((o.lookup "response").getD (.jobj [])).asObj
  let items ← ((ro.lookup "results").getD (.jarr [])).asArr
  items.mapM guardianParseItem

/-- `GuardianAPIClient.fetch_articles` (lines 74-97). -/
def guardianFetch : Option FetchResp → List Article × Bool
  | none => ([], true)
  | some r =>
    match r.body with
    | none => ([], true)
    | some b =>
      match guardianExtract b with
      | none => ([], true)
      | some arts => (arts, false)

/-- C6 counterexample: the adapters never check `response.status_code`.
A response with HTTP status 500 whose body happens to carry a
well-formed `articles` array is processed exactly like a success: the
fetch returns one (all-defaults) article and reports no error, whereas
the claim requires an empty sequence and an error report on any
non-2xx status. -/
theorem C6_counterexample :
    newsFetch (some ⟨500, some (.jobj [("articles", .jarr [.jobj []])])⟩) =
      ([⟨"", "", "", "", []⟩], false) ∧
    ([(⟨"", "", "", "", []⟩ : Article)], false).1 ≠ [] := by
  exact ⟨rfl, by simp⟩

/-- C6 (amended): for both adapters, a missing field of a well-formed
item is substituted with the empty string (an item with every field
missing yields the all-empty-string article) rather than failing the
fetch; on a network failure or a body that fails JSON decoding the
adapter returns the empty sequence and reports the error, and it never
raises past its boundary (totality).  The HTTP status code, however, is
never consulted: a non-2xx response with a parseable body is processed
as if it were a success. -/
theorem C6_adapter_degradation
    (s : Int) (o o' : List (String × JVal)) (a a' : Article)
    (hn : newsParseItem (.jobj o) = some a)
    (hg : guardianParseItem (.jobj o') = some a') :
    newsFetch none = ([], true) ∧
    guardianFetch none = ([], true) ∧
    newsFetch (some ⟨s, none⟩) = ([], true) ∧
    guardianFetch (some ⟨s, none⟩) = ([], true) ∧
    newsParseItem (.jobj []) = some ⟨"", "", "", "", []⟩ ∧
    guardianParseItem (.jobj []) = some ⟨"", "", "", "The Guardian", []⟩ ∧
    (o.lookup "title" = none → a.title = "") ∧
    (o.lookup "description" = none → a.description = "") ∧
    (o.lookup "url" = none → a.url = "") ∧
    (o.lookup "source" = none → a.source = "") ∧
    (o'.lookup "fields" = none → a'.title = "" ∧ a'.description = "") ∧
    (o'.lookup "webUrl" = none → a'.url = "") ∧
    a'.source = "The Guardian" := by
  have hn' : (((o.lookup "source").getD (.jobj [])).asObj.bind fun so =>
      ((o.lookup "title").getD (.jstr "")).asStr.bind fun title =>
      ((o.lookup "description").getD (.jstr "")).asStr.bind fun description =>
      ((o.lookup "url").getD (.jstr "")).asStr.bind fun url =>
      ((so.lookup "name").getD (.jstr "")).asStr.bind fun source =>
      some ⟨title, description, url, source, []⟩) = some a := hn
  have hg' : (((o'.lookup "fields").getD (.jobj [])).asObj.bind fun fo =>
      ((fo.lookup "headline").getD (.jstr "")).asStr.bind fun title =>
      ((fo.lookup "trailText").getD (.jstr "")).asStr.bind fun description =>
      ((o'.lookup "webUrl").getD (.jstr "")).asStr.bind fun url =>
      some ⟨title, description, url, "The Guardian", []⟩) = some a' := hg
  simp only [Option.bind_eq_some, Option.some.injEq] at hn' hg'
  obtain ⟨so, hso, t, ht, d, hd, u, hu, nm, hnm, ha⟩ := hn'
  obtain ⟨fo, hfo, t', ht', d', hd', u', hu', ha'⟩ := hg'
  subst ha
  subst ha'
  refine ⟨rfl, rfl, rfl, rfl, rfl, rfl, ?_, ?_, ?_, ?_, ?_, ?_, rfl⟩
  · intro hm; rw [hm] at ht
    simp only [Option.getD, JVal.asStr, Option.some.injEq] at ht
    exact ht.symm
  · intro hm; rw [hm] at hd
    simp only [Option.getD, JVal.asStr, Option.some.injEq] at hd
    exact hd.symm
  · intro hm; rw [hm] at hu
    simp only [Option.getD, JVal.asStr, Option.some.injEq] at hu
    exact hu.symm
  · intro hm
    rw [hm] at hso
    simp only [Option.getD, JVal.asObj, Option.some.injEq] at hso
    subst hso
    simp only [List.lookup, Option.getD, JVal.asStr, Option.some.injEq] at hnm
    exact hnm.symm
  · intro hm
    rw [hm] at hfo
    simp only [Option.getD, JVal.asObj, Option.some.injEq] at hfo
    subst hfo
    simp only [List.lookup, Option.getD, JVal.asStr, Option.some.injEq] at ht' hd'
    exact ⟨ht'.symm, hd'.symm⟩
  · intro hm; rw [hm] at hu'
    simp only [Option.getD, JVal.asStr, Option.some.injEq] at hu'
    exact hu'.symm

theorem C6_adapter_degradation_witness :
    newsParseItem (.jobj [("title", .jstr "T")]) = some ⟨"T", "", "", "", []⟩ ∧
    guardianParseItem (.jobj [("webUrl", .jstr "W")]) =
      some ⟨"", "", "W", "The Guardian", []⟩ ∧
    newsFetch none = ([], true) := by
  refine ⟨rfl, rfl, ?_⟩
  exact (C6_adapter_degradation 500 [("title", .jstr "T")] [("webUrl", .jstr "W")]
    ⟨"T", "", "", "", []⟩ ⟨"", "", "W", "The Guardian", []⟩ rfl rfl).1

/-!
## Post generation (lines 149-178) and the posting loop (lines 350-394)

`generate_post` swallows every judge failure into a fixed placeholder
string.  The "Final Approval and Posting" loop iterates over
article-index × platform pairs; a selected pair is published when
posting is enabled (`twitter`/`bluesky` via the corresponding client,
`linkedin` is skipped by the bare `continue` at line 375), or merely
previewed in dry-run.  `post_to_twitter` / `post_to_bluesky` catch all
their exceptions and return a success boolean, so a draft's outcome is
modelled as an oracle `outcome : platform → idx → Bool`.
-/

/-- `SocialMediaManager.generate_post` (lines 150-178) as a function of
the judge-call outcome (`some text` = the extracted
`choices[0].message.content`; `none` = the request or the extraction
raised).  The prompt and the per-platform guideline string only feed
the judge; the returned pair is `(post_text, "")` on success and the
placeholder — which does NOT mention the platform — on failure. -/
def generate_post (judgeOutput : Option String) : String × String :=
  match judgeOutput with
  | some post_text => (post_text, "")
  | none => ("Post generation failed", "")

/-- The platform list iterated at lines 284, 302 and 362. -/
def PLATFORMS : List String := ["twitter", "bluesky", "linkedin"]

/-- The generation loop of lines 283-288: one draft per platform per
article, the judge outcome per (platform, article index) given by an
oracle. -/
def generateAllPosts (judge : String → Nat → Option String) (nArticles : Nat) :
    List (String × List (String × String)) :=
  PLATFORMS.map fun p => (p, (List.range nArticles).map fun i => generate_post (judge p i))

/-- The (article index, platform) pairs traversed by the posting loop
(lines 361-362), in loop order. -/
def postPairs (n : Nat) : List (Nat × String) :=
  (List.range n).flatMap fun i => PLATFORMS.map fun p => (i, p)

/-- Platforms with an actual publish call (lines 370-373); `linkedin`
falls into the `else: continue` at line 374-375. -/
def isPub (p : String) : Bool := p == "twitter" || p == "bluesky"

/-- Observable of one iteration of the posting loop: a real publish
attempt carrying the returned success boolean, or a dry-run preview
display (lines 385-388), which has no success field. -/
inductive PostEvent where
  | attempted (idx : Nat) (platform : String) (success : Bool)
  | preview (idx : Nat) (platform : String)
deriving DecidableEq, Repr

/-- One iteration of the loop body (lines 363-388) acting on the
accumulator (`success_count`, events so far): unselected pairs and
selected `linkedin` pairs (via `continue`) contribute nothing; in
dry-run a preview is displayed; otherwise the publish call is attempted
and `success_count` increments iff it returns `True`. -/
def stepDraft (sel outcome : String → Nat → Bool) (postEnabled : Bool)
    (acc : Nat × List PostEvent) (ip : Nat × String) : Nat × List PostEvent :=
  if sel ip.2 ip.1 then
    if postEnabled then
      if isPub ip.2 then
        (acc.1 + (if outcome ip.2 ip.1 then 1 else 0),
         acc.2 ++ [.attempted ip.1 ip.2 (outcome ip.2 ip.1)])
      else acc
    else (acc.1, acc.2 ++ [.preview ip.1 ip.2])
  else acc

/-- The whole posting loop (lines 354-388): fold the body over all
pairs, starting from `success_count = 0`. -/
def runBatch (n : Nat) (sel outcome : String → Nat → Bool) (postEnabled : Bool) :
    Nat × List PostEvent :=
  (postPairs n).foldl (stepDraft sel outcome postEnabled) (0, [])

/-- `total_selected = sum(st.session_state.selected_posts.values())`
(line 355): the number of selected (article, platform) pairs, the
`linkedin` ones included. -/
def totalSelected (n : Nat) (sel : String → Nat → Bool) : Nat :=
  (postPairs n).countP fun ip => sel ip.2 ip.1

/-- What lines 390-394 display after the loop. -/
inductive SummaryMsg where
  | success (successCount totalSelected : Nat)
  | warning
  | nothing
deriving DecidableEq, Repr

/-- Lines 390-394: when actual posting is enabled, the
`success_count/total_selected` pair is displayed only if at least one
post succeeded (`if success_count > 0`); otherwise only a numbers-free
warning is shown.  In dry-run nothing is displayed. -/
def postSummary (postEnabled : Bool) (success total : Nat) : SummaryMsg :=
  if postEnabled then
    if 0 < success then .success success total else .warning
  else .nothing

/-- Closed form of one pair's event (used to reason about the fold). -/
def draftEvent (sel outcome : String → Nat → Bool) (postEnabled : Bool)
    (ip : Nat × String) : Option PostEvent :=
  if sel ip.2 ip.1 then
    if postEnabled then
      if isPub ip.2 then some (.attempted ip.1 ip.2 (outcome ip.2 ip.1)) else none
    else some (.preview ip.1 ip.2)
  else none

/-- Closed form of one pair's contribution to `success_count`. -/
def draftSuccess (sel outcome : String → Nat → Bool) (postEnabled : Bool)
    (ip : Nat × String) : Bool :=
  sel ip.2 ip.1 && (postEnabled && (isPub ip.2 && outcome ip.2 ip.1))

/-- The publish attempts recorded in an event list. -/
def eventAttempt : PostEvent → Option (Nat × String)
  | .attempted i p _ => some (i, p)
  | .preview _ _ => none

/-- The (idx, platform) pairs actually submitted to a publish call. -/
def attemptsOf (evs : List PostEvent) : List (Nat × String) :=
  evs.filterMap eventAttempt

def isSuccessEvent : PostEvent → Bool
  | .attempted _ _ s => s
  | .preview _ _ => false

def isAttemptedEvent : PostEvent → Bool
  | .attempted _ _ _ => true
  | .preview _ _ => false

def isPreviewEvent : PostEvent → Bool
  | .preview _ _ => true
  | .attempted _ _ _ => false

def eventPlatform : PostEvent → String
  | .attempted _ p _ => p
  | .preview _ p => p

theorem foldl_stepDraft (sel o : String → Nat → Bool) (e : Bool) :
    ∀ (l : List (Nat × String)) (acc : Nat × List PostEvent),
      l.foldl (stepDraft sel o e) acc =
        (acc.1 + l.countP (draftSuccess sel o e),
         acc.2 ++ l.filterMap (draftEvent sel o e)) := by
  intro l
  induction l with
  | nil => intro acc; simp
  | cons ip l ih =>
    intro acc
    rw [List.foldl_cons, ih]
    by_cases h1 : sel ip.2 ip.1 = true <;> by_cases h2 : e = true <;>
      by_cases h3 : isPub ip.2 = true <;> by_cases h4 : o ip.2 ip.1 = true <;>
      simp [stepDraft, draftEvent, draftSuccess, h1, h2, h3, h4,
        List.countP_cons, List.filterMap_cons] <;> omega

theorem runBatch_eq (n : Nat) (sel o : String → Nat → Bool) (e : Bool) :
    runBatch n sel o e =
      ((postPairs n).countP (draftSuccess sel o e),
       (postPairs n).filterMap (draftEvent sel o e)) := by
  unfold runBatch
  rw [foldl_stepDraft]
  simp

theorem draftEvent_attempted_iff (sel o : String → Nat → Bool) (i' i : Nat)
    (p' p : String) (b : Bool) :
    draftEvent sel o true (i', p') = some (.attempted i p b) ↔
      i' = i ∧ p' = p ∧ sel p' i' = true ∧ isPub p' = true ∧ o p' i' = b := by
  by_cases h1 : sel p' i' = true <;> by_cases h3 : isPub p' = true <;>
    simp [draftEvent, h1, h3]

theorem attemptsOf_closed (sel o : String → Nat → Bool) (l : List (Nat × String)) :
    attemptsOf (l.filterMap (draftEvent sel o true)) =
      l.filter fun ip => sel ip.2 ip.1 && isPub ip.2 := by
  induction l with
  | nil => rfl
  | cons ip l ih =>
    by_cases h1 : sel ip.2 ip.1 = true <;> by_cases h3 : isPub ip.2 = true <;>
      simp [attemptsOf, draftEvent, eventAttempt, List.filterMap_cons,
        List.filter_cons, h1, h3] <;>
      simpa [attemptsOf] using ih

theorem countP_success_closed (sel o : String → Nat → Bool) (l : List (Nat × String)) :
    (l.filterMap (draftEvent sel o true)).countP isSuccessEvent =
      l.countP (draftSuccess sel o true) := by
  induction l with
  | nil => rfl
  | cons ip l ih =>
    by_cases h1 : sel ip.2 ip.1 = true <;> by_cases h3 : isPub ip.2 = true <;>
      by_cases h4 : o ip.2 ip.1 = true <;>
      simp [draftEvent, draftSuccess, isSuccessEvent, List.filterMap_cons,
        List.countP_cons, h1, h3, h4, ih]

theorem countP_lt_of_witness (l : List α) (p q : α → Bool)
    (hpq : ∀ a ∈ l, p a = true → q a = true) (x : α) (hx : x ∈ l)
    (hqx : q x = true) (hpx : p x = false) :
    l.countP p < l.countP q := by
  induction l with
  | nil => cases hx
  | cons y l ih =>
    rw [List.countP_cons, List.countP_cons]
    rcases List.mem_cons.mp hx with rfl | hx'
    · have hle : l.countP p ≤ l.countP q :=
        List.countP_mono_left fun a ha hpa => hpq a (List.mem_cons_of_mem _ ha) hpa
      simp [hpx, hqx]
      omega
    · have h' := ih (fun a ha => hpq a (List.mem_cons_of_mem _ ha)) hx'
      have hy := hpq y (List.mem_cons_self y l)
      by_cases hpy : p y = true
      · simp [hpy, hy hpy]; omega
      · simp only [hpy]
        by_cases hqy : q y = true <;> simp [hqy] <;> omega

theorem mem_postPairs (n : Nat) (i : Nat) (p : String) :
    (i, p) ∈ postPairs n ↔ i < n ∧ p ∈ PLATFORMS := by
  simp [postPairs, List.mem_flatMap, List.mem_range]

/-- C7 (amended): in a batch with actual posting enabled, the set of
drafts that receive a publish attempt does not depend on the outcomes
of the publish calls — forcing one draft's underlying call to fail
leaves all other drafts' attempts and recorded results unchanged; the
loop aggregates `success_count` (the number of attempts whose call
returned success) against `total_selected`, and displays the pair
whenever at least one post succeeded, showing only a numbers-free
warning when every attempt failed. -/
theorem C7_partial_failure_independence (n : Nat) (sel o o' : String → Nat → Bool)
    (j : Nat) (q : String)
    (hagree : ∀ p i, (i, p) ≠ (j, q) → o p i = o' p i) :
    attemptsOf (runBatch n sel o true).2 = attemptsOf (runBatch n sel o' true).2 ∧
    (∀ i p b, (i, p) ≠ (j, q) →
      (PostEvent.attempted i p b ∈ (runBatch n sel o true).2 ↔
        PostEvent.attempted i p b ∈ (runBatch n sel o' true).2)) ∧
    (runBatch n sel o true).1 = (runBatch n sel o true).2.countP isSuccessEvent ∧
    (runBatch n sel o true).1 ≤ totalSelected n sel ∧
    (0 < (runBatch n sel o true).1 →
      postSummary true (runBatch n sel o true).1 (totalSelected n sel) =
        .success (runBatch n sel o true).1 (totalSelected n sel)) ∧
    ((runBatch n sel o true).1 = 0 →
      postSummary true (runBatch n sel o true).1 (totalSelected n sel) =
        .warning) := by
  refine ⟨?_, ?_, ?_, ?_, ?_, ?_⟩
  · rw [runBatch_eq, runBatch_eq]
    simp only [attemptsOf_closed]
  · intro i p b hne
    rw [runBatch_eq, runBatch_eq]
    simp only [List.mem_filterMap]
    constructor
    · rintro ⟨⟨i', p'⟩, hmem, heq⟩
      obtain ⟨rfl, rfl, hsel, hpub, hout⟩ := (draftEvent_attempted_iff _ _ _ _ _ _ _).mp heq
      refine ⟨(i', p'), hmem, ?_⟩
      rw [draftEvent_attempted_iff]
      exact ⟨rfl, rfl, hsel, hpub, (hagree p' i' hne).symm.trans hout⟩
    · rintro ⟨⟨i', p'⟩, hmem, heq⟩
      obtain ⟨rfl, rfl, hsel, hpub, hout⟩ := (draftEvent_attempted_iff _ _ _ _ _ _ _).mp heq
      refine ⟨(i', p'), hmem, ?_⟩
      rw [draftEvent_attempted_iff]
      exact ⟨rfl, rfl, hsel, hpub, (hagree p' i' hne).trans hout⟩
  · rw [runBatch_eq]
    exact (countP_success_closed sel o (postPairs n)).symm
  · rw [runBatch_eq]
    exact List.countP_mono_left fun ip _ h => by
      simpa [draftSuccess] using (Bool.and_elim_left h)
  · intro h
    simp [postSummary, h]
  · intro h
    simp [postSummary, h]

/-- The all-selected configuration used by concrete batch instances. -/
def selAll : String → Nat → Bool := fun _ _ => true

/-- The configuration selecting only each article's twitter draft. -/
def selTwitterOnly : String → Nat → Bool := fun p _ => p == "twitter"

/-- The publish oracle on which every call fails. -/
def oFail : String → Nat → Bool := fun _ _ => false

/-- C7 counterexample: with posting enabled, one selected twitter draft
whose underlying publish call fails, `success_count` is 0 and lines
390-394 display only the numbers-free warning — neither
`success_count` nor `total_selected` is exposed to the caller, though
the claim promises both unconditionally. -/
theorem C7_counterexample :
    runBatch 1 selTwitterOnly oFail true = (0, [.attempted 0 "twitter" false]) ∧
    totalSelected 1 selTwitterOnly = 1 ∧
    postSummary true 0 1 = SummaryMsg.warning ∧
    SummaryMsg.warning ≠ SummaryMsg.success 0 1 := by
  refine ⟨by decide, by decide, rfl, by decide⟩

theorem C7_partial_failure_independence_witness :
    (∀ (p : String) (i : Nat), (i, p) ≠ (0, "twitter") → selAll p i = selAll p i) ∧
    (attemptsOf (runBatch 1 selAll selAll true).2 =
        attemptsOf (runBatch 1 selAll selAll true).2 ∧
      (∀ i p b, (i, p) ≠ (0, "twitter") →
        (PostEvent.attempted i p b ∈ (runBatch 1 selAll selAll true).2 ↔
          PostEvent.attempted i p b ∈ (runBatch 1 selAll selAll true).2)) ∧
      (runBatch 1 selAll selAll true).1 =
        (runBatch 1 selAll selAll true).2.countP isSuccessEvent ∧
      (runBatch 1 selAll selAll true).1 ≤ totalSelected 1 selAll ∧
      (0 < (runBatch 1 selAll selAll true).1 →
        postSummary true (runBatch 1 selAll selAll true).1 (totalSelected 1 selAll) =
          .success (runBatch 1 selAll selAll true).1 (totalSelected 1 selAll)) ∧
      ((runBatch 1 selAll selAll true).1 = 0 →
        postSummary true (runBatch 1 selAll selAll true).1 (totalSelected 1 selAll) =
          .warning)) :=
  ⟨fun _ _ _ => rfl,
   C7_partial_failure_independence 1 selAll selAll selAll 0 "twitter" fun _ _ _ => rfl⟩

/-- C8 counterexample: a dry-run batch with three selected drafts
produces only `preview` events — zero publish-result-shaped
(`attempted`) outcomes — and the success/total summary is not shown, so
a dry-run publish does NOT yield a result of the same shape as a real
publish call (it yields none at all). -/
theorem C8_counterexample :
    runBatch 1 selAll selAll false =
      (0, [.preview 0 "twitter", .preview 0 "bluesky", .preview 0 "linkedin"]) ∧
    totalSelected 1 selAll = 3 ∧
    ([PostEvent.preview 0 "twitter", .preview 0 "bluesky",
      .preview 0 "linkedin"]).countP isAttemptedEvent = 0 ∧
    postSummary false 0 3 = SummaryMsg.nothing := by
  refine ⟨by decide, by decide, by decide, rfl⟩

/-- C8 (amended): when publishing is globally disabled, no publish path
performs a network call — the batch outcome is entirely independent of
the publish oracle, the success count stays 0 and no pair is ever
submitted to a publish call; each selected draft only yields a preview
display event (which carries no success field), and the success/total
summary is not exposed. -/
theorem C8_dry_run_no_calls (n : Nat) (sel o o' : String → Nat → Bool) :
    runBatch n sel o false = runBatch n sel o' false ∧
    (runBatch n sel o false).1 = 0 ∧
    attemptsOf (runBatch n sel o false).2 = [] ∧
    (∀ ev ∈ (runBatch n sel o false).2, isPreviewEvent ev = true) ∧
    postSummary false (runBatch n sel o false).1 (totalSelected n sel) =
      SummaryMsg.nothing := by
  have hde : ∀ (g : String → Nat → Bool), draftEvent sel g false =
      fun ip => if sel ip.2 ip.1 then some (.preview ip.1 ip.2) else none := by
    intro g
    funext ip
    by_cases h : sel ip.2 ip.1 = true <;> simp [draftEvent, h]
  have hds : ∀ (g : String → Nat → Bool), draftSuccess sel g false = fun _ => false := by
    intro g
    funext ip
    simp [draftSuccess]
  refine ⟨?_, ?_, ?_, ?_, rfl⟩
  · rw [runBatch_eq, runBatch_eq, hde o, hde o', hds o, hds o']
  · rw [runBatch_eq, hds o]
    simp
  · rw [runBatch_eq, hde o]
    refine List.filterMap_eq_nil_iff.mpr ?_
    intro ev hev
    obtain ⟨ip, _, heq⟩ := List.mem_filterMap.mp hev
    by_cases h : sel ip.2 ip.1 = true
    · rw [if_pos h] at heq
      cases heq
      rfl
    · rw [if_neg h] at heq
      cases heq
  · intro ev hev
    rw [runBatch_eq, hde o] at hev
    obtain ⟨ip, _, heq⟩ := List.mem_filterMap.mp hev
    by_cases h : sel ip.2 ip.1 = true
    · rw [if_pos h] at heq
      cases heq
      rfl
    · rw [if_neg h] at heq
      cases heq

theorem C8_dry_run_no_calls_witness :
    runBatch 1 selAll selAll false = runBatch 1 selAll selAll false ∧
    (runBatch 1 selAll selAll false).1 = 0 ∧
    attemptsOf (runBatch 1 selAll selAll false).2 = [] ∧
    (∀ ev ∈ (runBatch 1 selAll selAll false).2, isPreviewEvent ev = true) ∧
    postSummary false (runBatch 1 selAll selAll false).1 (totalSelected 1 selAll) =
      SummaryMsg.nothing :=
  C8_dry_run_no_calls 1 selAll selAll selAll

/-- C10: with actual posting enabled, a selected `linkedin` draft is
silently skipped by the `continue` at line 375: no event (attempt or
error) is ever produced for the `linkedin` platform, while the draft
still counts in `total_selected`; hence whenever some selected
`linkedin` draft exists, `success_count < total_selected`, so the batch
can never report full success. -/
theorem C10_linkedin_silently_skipped (n : Nat) (sel o : String → Nat → Bool)
    (hln : ∃ i, i < n ∧ sel "linkedin" i = true) :
    (∀ ev ∈ (runBatch n sel o true).2, eventPlatform ev ≠ "linkedin") ∧
    (runBatch n sel o true).1 < totalSelected n sel := by
  obtain ⟨i, hi, hsel⟩ := hln
  have hlp : isPub "linkedin" = false := by decide
  constructor
  · intro ev hev
    rw [runBatch_eq] at hev
    obtain ⟨⟨i', p'⟩, hmem, heq⟩ := List.mem_filterMap.mp hev
    cases ev with
    | attempted i'' p'' b =>
      obtain ⟨rfl, rfl, hsel', hpub, hout⟩ :=
        (draftEvent_attempted_iff sel o i' i'' p' p'' b).mp heq
      intro hplat
      rw [show eventPlatform (.attempted i' p' b) = p' from rfl] at hplat
      rw [hplat] at hpub
      exact absurd hpub (by decide)
    | preview i'' p'' =>
      exfalso
      by_cases h1 : sel p' i' = true <;> by_cases h3 : isPub p' = true <;>
        simp [draftEvent, h1, h3] at heq
  · rw [runBatch_eq]
    refine countP_lt_of_witness (postPairs n) _ _ ?_ (i, "linkedin") ?_ hsel ?_
    · intro a _ h
      simp only [draftSuccess, Bool.and_eq_true] at h
      exact h.1
    · exact (mem_postPairs n i "linkedin").mpr ⟨hi, by decide⟩
    · simp [draftSuccess, hlp]

/-- A selection in which only the `linkedin` draft of each article is
selected. -/
def selLinkedOnly : String → Nat → Bool := fun p _ => p == "linkedin"

theorem C10_linkedin_silently_skipped_witness :
    (∃ i, i < 1 ∧ selLinkedOnly "linkedin" i = true) ∧
    ((∀ ev ∈ (runBatch 1 selLinkedOnly selAll true).2, eventPlatform ev ≠ "linkedin") ∧
      (runBatch 1 selLinkedOnly selAll true).1 < totalSelected 1 selLinkedOnly) :=
  ⟨⟨0, by decide, by decide⟩,
   C10_linkedin_silently_skipped 1 selLinkedOnly selAll ⟨0, by decide, by decide⟩⟩

/-- C9 counterexample: when the judge call fails, `generate_post`
returns the placeholder `"Post generation failed"` which does NOT
identify the platform — for no platform does it equal the documented
`"Post generation failed for <platform>"` string. -/
theorem C9_counterexample :
    generate_post none = ("Post generation failed", "") ∧
    (generate_post none).1 ≠ "Post generation failed for twitter" ∧
    (generate_post none).1 ≠ "Post generation failed for bluesky" ∧
    (generate_post none).1 ≠ "Post generation failed for linkedin" := by
  refine ⟨rfl, by decide, by decide, by decide⟩

/-- C9 (amended): on judge-call failure `generate_post` returns the
fixed placeholder string `"Post generation failed"` (with no platform
name) instead of raising, and the generation loop still produces a
draft for every (platform, article) pair — one entry per platform, `n`
drafts each — regardless of which judge calls fail. -/
theorem C9_generation_failure_placeholder (judge : String → Nat → Option String) (n : Nat) :
    (∀ p i, judge p i = none → generate_post (judge p i) = ("Post generation failed", "")) ∧
    (generateAllPosts judge n).length = PLATFORMS.length ∧
    (∀ e ∈ generateAllPosts judge n, e.2.length = n) := by
  refine ⟨?_, by simp [generateAllPosts], ?_⟩
  · intro p i h
    rw [h]
    rfl
  · intro e he
    simp only [generateAllPosts] at he
    obtain ⟨p, hp, rfl⟩ := List.mem_map.mp he
    simp

/-- The judge oracle on which every call fails. -/
def judgeFail : String → Nat → Option String := fun _ _ => none

theorem C9_generation_failure_placeholder_witness :
    (∀ p i, judgeFail p i = none →
      generate_post (judgeFail p i) = ("Post generation failed", "")) ∧
    (generateAllPosts judgeFail 2).length = PLATFORMS.length ∧
    (∀ e ∈ generateAllPosts judgeFail 2, e.2.length = 2) :=
  C9_generation_failure_placeholder judgeFail 2

/-!
## RateLimiter (lines 29-46)

`rate_limited(max_calls)` wraps a fetch call: it reassigns the
process-wide `API_CALL_LOG` to the entries younger than 24h (86400 s),
denies the call when the pruned log has reached `max_calls` — reporting
`API_CALL_LOG[0] + 86400` as the next available time and halting via
`st.stop()` — and otherwise runs the wrapped function and appends the
completion clock `time.time()` to the log.

A trace is a list of (check clock, record clock) pairs: the decorator
reads the clock at entry (`now`, line 33) and again after the wrapped
call returns (line 43), so the check precedes the record; calls are
strictly sequential (single-threaded script reruns sharing the global
log), so each record clock is at most the next call's check clock.
`chrono` captures exactly this clock monotonicity.
-/

/-- 24 hours in seconds (the literal 86400 of lines 34 and 38). -/
def WINDOW : Int := 86400

/-- Line 16: the configured daily ceiling. -/
def MAX_API_CALLS_PER_DAY : Nat := 500

/-- Line 34: `API_CALL_LOG = [t for t in API_CALL_LOG if now - t < 86400]`. -/
def prune (now : Int) (log : List Int) : List Int :=
  log.filter fun t => decide (now - t < WINDOW)

/-- One wrapped call (lines 31-44), entered at clock `c`: prune, then
either deny (returning the pruned log unchanged and the reported
next-available time `pruned[0] + 86400`), or admit, run the call, and
append the completion clock `r`. -/
def rlStep (maxCalls : Nat) (c r : Int) (log : List Int) :
    Bool × List Int × Option Int :=
  let pruned := prune c log
  if maxCalls ≤ pruned.length then
    (false, pruned, pruned.head?.map fun t => t + WINDOW)
  else
    (true, pruned ++ [r], none)

/-- Run a trace of gated calls against the shared log, returning the
record clocks of the admitted calls (in order) and the final log.
Denial halts only the current operation (`st.stop()`); the global log
persists into the next operation, hence the run continues. -/
def rlRun (maxCalls : Nat) : List (Int × Int) → List Int → List Int × List Int
  | [], log => ([], log)
  | (c, r) :: rest, log =>
    let s := rlStep maxCalls c r log
    let res := rlRun maxCalls rest s.2.1
    (if s.1 then r :: res.1 else res.1, res.2)

/-- Clock monotonicity of a trace starting no earlier than `lb`. -/
def chrono : Int → List (Int × Int) → Bool
  | _, [] => true
  | lb, (c, r) :: rest => decide (lb ≤ c) && (decide (c ≤ r) && chrono r rest)

/-- How many of the timestamps lie in the trailing 24h window ending at
`T` (with the strict age comparison of line 34). -/
def countW (T : Int) (l : List Int) : Nat :=
  l.countP fun t => decide (T - WINDOW < t ∧ t ≤ T)

theorem chrono_cons {lb c r : Int} {rest : List (Int × Int)} :
    chrono lb ((c, r) :: rest) = true ↔ lb ≤ c ∧ c ≤ r ∧ chrono r rest = true := by
  simp [chrono, Bool.and_eq_true]

/-- Every admitted record clock of a chrono trace is at least the
trace's lower clock bound. -/
theorem rlRun_admitted_lb (M : Nat) (trace : List (Int × Int)) :
    ∀ (lb : Int) (log : List Int), chrono lb trace = true →
      ∀ a ∈ (rlRun M trace log).1, lb ≤ a := by
  induction trace with
  | nil =>
    intro lb log _ a ha
    simp [rlRun] at ha
  | cons cr rest ih =>
    obtain ⟨c, r⟩ := cr
    intro lb log hc a ha
    obtain ⟨h1, h2, h3⟩ := chrono_cons.mp hc
    simp only [rlRun] at ha
    by_cases hs : (rlStep M c r log).1 = true
    · rw [if_pos hs] at ha
      rcases List.mem_cons.mp ha with rfl | ha'
      · exact le_trans h1 h2
      · exact le_trans (le_trans h1 h2) (ih r _ h3 a ha')
    · rw [if_neg hs] at ha
      exact le_trans (le_trans h1 h2) (ih r _ h3 a ha)

/-- Pruning at a clock not later than `T` removes no timestamp of the
window ending at `T`. -/
theorem countW_prune (c T : Int) (log : List Int) (hT : c ≤ T) :
    countW T (prune c log) = countW T log := by
  unfold countW prune
  rw [List.countP_filter]
  refine List.countP_congr fun t _ => ?_
  simp only [Bool.and_eq_true, decide_eq_true_eq]
  constructor
  · rintro ⟨hw, -⟩
    exact hw
  · rintro ⟨hgt, hle⟩
    refine ⟨⟨hgt, hle⟩, ?_⟩
    omega

/-- The key budget invariant: along any chrono trace, the admitted
record clocks falling in any trailing 24h window, plus the initial log
entries in that window, never exceed the ceiling. -/
theorem countW_run_le (M : Nat) (trace : List (Int × Int)) :
    ∀ (lb T : Int) (log : List Int), chrono lb trace = true →
      (∀ t ∈ log, t ≤ lb) → log.length ≤ M →
      countW T (rlRun M trace log).1 + countW T log ≤ M := by
  induction trace with
  | nil =>
    intro lb T log _ _ hlen
    have hc := List.countP_le_length (fun t => decide (T - WINDOW < t ∧ t ≤ T)) (l := log)
    simp only [rlRun, countW, List.countP_nil]
    omega
  | cons cr rest ih =>
    obtain ⟨c, r⟩ := cr
    intro lb T log hc hlb hlen
    obtain ⟨h1, h2, h3⟩ := chrono_cons.mp hc
    have hplen : (prune c log).length ≤ log.length := List.length_filter_le _ _
    have hpmem : ∀ t ∈ prune c log, t ≤ r :=
      fun t ht => le_trans (hlb t (List.mem_of_mem_filter ht)) (le_trans h1 h2)
    have hlogle : countW T log ≤ log.length :=
      List.countP_le_length (fun t => decide (T - WINDOW < t ∧ t ≤ T))
    simp only [rlRun]
    by_cases hadm : M ≤ (prune c log).length
    · have hs1 : (rlStep M c r log).1 = false := by
        simp [rlStep, if_pos hadm]
      have hs2 : (rlStep M c r log).2.1 = prune c log := by
        simp [rlStep, if_pos hadm]
      rw [if_neg (by simp [hs1]), hs2]
      have hIH := ih r T (prune c log) h3 hpmem (le_trans hplen hlen)
      by_cases hT : c ≤ T
      · rw [countW_prune c T log hT] at hIH
        omega
      · have hz : countW T (rlRun M rest (prune c log)).1 = 0 := by
          rw [countW, List.countP_eq_zero]
          intro a ha
          have hra : r ≤ a := rlRun_admitted_lb M rest r _ h3 a ha
          simp only [decide_eq_true_eq, not_and]
          intro _
          omega
        omega
    · have hs1 : (rlStep M c r log).1 = true := by
        simp [rlStep, if_neg hadm]
      have hs2 : (rlStep M c r log).2.1 = prune c log ++ [r] := by
        simp [rlStep, if_neg hadm]
      rw [if_pos (by simp [hs1]), hs2]
      have hlb' : ∀ t ∈ prune c log ++ [r], t ≤ r := by
        intro t ht
        rcases List.mem_append.mp ht with ht' | ht'
        · exact hpmem t ht'
        · rcases List.mem_singleton.mp ht' with rfl
          exact le_refl t
      have hlen' : (prune c log ++ [r]).length ≤ M := by
        rw [List.length_append, List.length_singleton]
        omega
      have hIH := ih r T (prune c log ++ [r]) h3 hlb' hlen'
      simp only [countW, List.countP_append, List.countP_cons, List.countP_nil]
        at hIH hlogle ⊢
      set k := if (decide (T - WINDOW < r ∧ r ≤ T)) = true then 1 else 0 with hk
      by_cases hT : c ≤ T
      · have hwin := countW_prune c T log hT
        simp only [countW] at hwin
        omega
      · have hz : (rlRun M rest (prune c log ++ [r])).1.countP
            (fun t => decide (T - WINDOW < t ∧ t ≤ T)) = 0 := by
          rw [List.countP_eq_zero]
          intro a ha
          have hra : r ≤ a := rlRun_admitted_lb M rest r _ h3 a ha
          simp only [decide_eq_true_eq, not_and]
          intro _
          omega
        have hk0 : k = 0 := by
          rw [hk]
          rw [if_neg ?_]
          simp only [decide_eq_true_eq, not_and]
          intro _
          omega
        omega

/-- Along a chrono trace the shared log stays sorted ascending (so its
first entry is the oldest retained timestamp). -/
theorem rlRun_sorted (M : Nat) (trace : List (Int × Int)) :
    ∀ (lb : Int) (log : List Int), chrono lb trace = true →
      (∀ t ∈ log, t ≤ lb) → List.Pairwise (· ≤ ·) log →
      List.Pairwise (· ≤ ·) (rlRun M trace log).2 := by
  induction trace with
  | nil =>
    intro lb log _ _ hs
    simpa [rlRun] using hs
  | cons cr rest ih =>
    obtain ⟨c, r⟩ := cr
    intro lb log hc hlb hs
    obtain ⟨h1, h2, h3⟩ := chrono_cons.mp hc
    have hpmem : ∀ t ∈ prune c log, t ≤ r :=
      fun t ht => le_trans (hlb t (List.mem_of_mem_filter ht)) (le_trans h1 h2)
    have hps : List.Pairwise (· ≤ ·) (prune c log) := hs.filter _
    simp only [rlRun]
    by_cases hadm : M ≤ (prune c log).length
    · have hs2 : (rlStep M c r log).2.1 = prune c log := by
        simp [rlStep, if_pos hadm]
      rw [hs2]
      exact ih r (prune c log) h3 hpmem hps
    · have hs2 : (rlStep M c r log).2.1 = prune c log ++ [r] := by
        simp [rlStep, if_neg hadm]
      rw [hs2]
      refine ih r (prune c log ++ [r]) h3 ?_ ?_
      · intro t ht
        rcases List.mem_append.mp ht with ht' | ht'
        · exact hpmem t ht'
        · rcases List.mem_singleton.mp ht' with rfl
          exact le_refl t
      · refine List.pairwise_append.mpr ⟨hps, List.pairwise_singleton _ _, ?_⟩
        intro a ha b hb
        rcases List.mem_singleton.mp hb with rfl
        exact hpmem a ha

theorem sorted_head_min (t0 : Int) (l' : List Int)
    (hs : List.Pairwise (· ≤ ·) (t0 :: l')) : ∀ t ∈ t0 :: l', t0 ≤ t := by
  intro t ht
  rcases List.mem_cons.mp ht with rfl | ht'
  · exact le_refl t
  · rcases hs with - | ⟨h1, -⟩
    exact h1 t ht'

theorem rlStep_admitted_iff (M : Nat) (c r : Int) (log : List Int) :
    (rlStep M c r log).1 = true ↔ (prune c log).length < M := by
  by_cases h : M ≤ (prune c log).length <;> simp [rlStep, h] <;> omega

theorem rlStep_log_admitted (M : Nat) (c r : Int) (log : List Int)
    (h : (rlStep M c r log).1 = true) :
    (rlStep M c r log).2.1 = prune c log ++ [r] := by
  by_cases h' : M ≤ (prune c log).length
  · simp [rlStep, h'] at h
  · simp [rlStep, h']

theorem rlStep_log_denied (M : Nat) (c r : Int) (log : List Int)
    (h : (rlStep M c r log).1 = false) :
    (rlStep M c r log).2.1 = prune c log ∧
    (rlStep M c r log).2.2 = (prune c log).head?.map (fun t => t + WINDOW) := by
  by_cases h' : M ≤ (prune c log).length
  · simp [rlStep, h']
  · simp [rlStep, h'] at h

/-- C1: for every chrono trace of gated fetch calls run from the empty
log, at most `M` calls are admitted within any trailing 24h window
(counted at the recorded timestamps); the reachable log is sorted; and
at the next gated call on the reached log: entries older than 24h are
dropped before the admission check, the call is admitted iff the
remaining count is below the ceiling, the new timestamp is recorded
only on admission, and a denial leaves the log unchanged and reports
`oldest retained timestamp + 24h` as the next available time.  The
configured default ceiling is 500. -/
theorem C1_rate_limiter_window_bound (M : Nat) (lb T c r : Int)
    (trace : List (Int × Int)) (hc : chrono lb trace = true) :
    countW T (rlRun M trace []).1 ≤ M ∧
    List.Pairwise (· ≤ ·) (rlRun M trace []).2 ∧
    ((rlStep M c r (rlRun M trace []).2).1 = true ↔
      (prune c (rlRun M trace []).2).length < M) ∧
    ((rlStep M c r (rlRun M trace []).2).1 = true →
      (rlStep M c r (rlRun M trace []).2).2.1 =
        prune c (rlRun M trace []).2 ++ [r]) ∧
    ((rlStep M c r (rlRun M trace []).2).1 = false →
      (rlStep M c r (rlRun M trace []).2).2.1 = prune c (rlRun M trace []).2 ∧
      (rlStep M c r (rlRun M trace []).2).2.2 =
        (prune c (rlRun M trace []).2).head?.map (fun t => t + WINDOW)) ∧
    ((rlStep M c r (rlRun M trace []).2).1 = false → 0 < M →
      ∃ t0, (rlStep M c r (rlRun M trace []).2).2.2 = some (t0 + WINDOW) ∧
        t0 ∈ prune c (rlRun M trace []).2 ∧
        ∀ t ∈ prune c (rlRun M trace []).2, t0 ≤ t) ∧
    MAX_API_CALLS_PER_DAY = 500 := by
  have hbound := countW_run_le M trace lb T [] hc (by simp) (by simp)
  have hsorted := rlRun_sorted M trace lb [] hc (by simp) List.Pairwise.nil
  refine ⟨?_, hsorted, rlStep_admitted_iff M c r _,
    rlStep_log_admitted M c r _, rlStep_log_denied M c r _, ?_, rfl⟩
  · simpa [countW] using hbound
  · intro hden hM
    have hd := rlStep_log_denied M c r _ hden
    have hlen : M ≤ (prune c (rlRun M trace []).2).length := by
      by_contra h'
      have := (rlStep_admitted_iff M c r (rlRun M trace []).2).mpr
        (Nat.lt_of_not_le h')
      rw [hden] at this
      exact Bool.false_ne_true this
    have hne : prune c (rlRun M trace []).2 ≠ [] := by
      intro h0
      rw [h0] at hlen
      simp at hlen
      omega
    obtain ⟨t0, l', he⟩ := List.exists_cons_of_ne_nil hne
    have hps : List.Pairwise (· ≤ ·) (prune c (rlRun M trace []).2) :=
      hsorted.filter _
    refine ⟨t0, ?_, ?_, ?_⟩
    · rw [hd.2, he]
      rfl
    · rw [he]
      exact List.mem_cons_self _ _
    · rw [he]
      exact sorted_head_min t0 l' (he ▸ hps)

/-- A concrete chrono trace of three gated calls. -/
def rlTraceW : List (Int × Int) := [(0, 1), (2, 3), (4, 5)]

theorem C1_rate_limiter_window_bound_witness :
    chrono 0 rlTraceW = true ∧
    (countW 10 (rlRun 2 rlTraceW []).1 ≤ 2 ∧
      List.Pairwise (· ≤ ·) (rlRun 2 rlTraceW []).2 ∧
      ((rlStep 2 6 7 (rlRun 2 rlTraceW []).2).1 = true ↔
        (prune 6 (rlRun 2 rlTraceW []).2).length < 2) ∧
      ((rlStep 2 6 7 (rlRun 2 rlTraceW []).2).1 = true →
        (rlStep 2 6 7 (rlRun 2 rlTraceW []).2).2.1 =
          prune 6 (rlRun 2 rlTraceW []).2 ++ [7]) ∧
      ((rlStep 2 6 7 (rlRun 2 rlTraceW []).2).1 = false →
        (rlStep 2 6 7 (rlRun 2 rlTraceW []).2).2.1 = prune 6 (rlRun 2 rlTraceW []).2 ∧
        (rlStep 2 6 7 (rlRun 2 rlTraceW []).2).2.2 =
          (prune 6 (rlRun 2 rlTraceW []).2).head?.map (fun t => t + WINDOW)) ∧
      ((rlStep 2 6 7 (rlRun 2 rlTraceW []).2).1 = false → 0 < 2 →
        ∃ t0, (rlStep 2 6 7 (rlRun 2 rlTraceW []).2).2.2 = some (t0 + WINDOW) ∧
          t0 ∈ prune 6 (rlRun 2 rlTraceW []).2 ∧
          ∀ t ∈ prune 6 (rlRun 2 rlTraceW []).2, t0 ≤ t) ∧
      MAX_API_CALLS_PER_DAY = 500) :=
  ⟨by decide, C1_rate_limiter_window_bound 2 0 10 6 7 rlTraceW (by decide)⟩
